import Mathlib

/-!
Shallow embedding of the zellij-autolock plugin (src/main.rs) and proofs
about its event-driven state machine: trigger classification, focus
tracking, debounce scheduling, the mode transition guard, the pipe
control channel and configuration loading.

Conventions of the embedding:
* machine integers (`usize`, `u32`) are `Nat`; the Rust sentinel values
  `usize::MAX` / `u32::MAX` are the explicit constants below (only
  equality comparisons occur, so no overflow arithmetic is involved);
* `f64` values are modelled as `Rat` (the control logic never computes
  with them; they are only stored and handed to the host timer);
* host side effects (`switch_to_input_mode`, `list_clients`,
  `set_timeout`, `hide_self`) become an explicit `Effect` list returned
  by each handler; diagnostic `eprintln!` output is ignored;
* a Rust panic (`unwrap` on a failed parse, out-of-bounds indexing) is
  modelled by returning `none`.
-/

/-- Rust `char::is_whitespace`, restricted to the ASCII whitespace range
(the commands and configuration values of interest are ASCII). -/
def isWS (c : Char) : Bool := c.isWhitespace

/-- Characters of a string with leading and trailing whitespace removed;
the list-level core of Rust `str::trim`. -/
def trimChars (l : List Char) : List Char :=
  ((l.dropWhile isWS).reverse.dropWhile isWS).reverse

/-- Rust `str::trim`. -/
def rustTrim (s : String) : String := ⟨trimChars s.data⟩

/-- Rust `str::is_empty`. -/
def rustIsEmpty (s : String) : Bool := s.data.isEmpty

/-- Accumulator pass behind `splitWhitespace`: maximal runs of
non-whitespace characters, in order, empty runs discarded. -/
def splitWSAux : List Char → List Char → List (List Char)
  | [], acc => if acc.isEmpty then [] else [acc.reverse]
  | c :: cs, acc =>
    if isWS c then
      if acc.isEmpty then splitWSAux cs []
      else acc.reverse :: splitWSAux cs []
    else splitWSAux cs (c :: acc)

/-- Rust `str::split_whitespace` collected into a list: the
whitespace-delimited tokens of the string, never containing an empty
token. -/
def splitWhitespace (s : String) : List String :=
  (splitWSAux s.data []).map (fun l => ⟨l⟩)

/-- Accumulator pass behind `splitOnChar`; like Rust `str::split(sep)`
the result is never empty and keeps empty pieces. -/
def splitOnCharAux (sep : Char) : List Char → List Char → List (List Char)
  | [], acc => [acc.reverse]
  | c :: cs, acc =>
    if c = sep then acc.reverse :: splitOnCharAux sep cs []
    else splitOnCharAux sep cs (c :: acc)

/-- Rust `str::split(sep)` collected into a list. -/
def splitOnChar (sep : Char) (s : String) : List String :=
  (splitOnCharAux sep s.data []).map (fun l => ⟨l⟩)

/-- Rust `usize::MAX`, used by main.rs as the "no tab tracked" sentinel. -/
def usizeMAX : Nat := 2 ^ 64 - 1

/-- Rust `u32::MAX`, used by main.rs as the "no pane tracked" sentinel. -/
def u32MAX : Nat := 2 ^ 32 - 1

/-- Host input modes (zellij `InputMode`); the plugin's logic only
distinguishes `Normal`, `Locked` and "anything else", so the remaining
host modes are collapsed into an indexed `Other` constructor. -/
inductive InputMode where
  | Normal : InputMode
  | Locked : InputMode
  | Other : Nat → InputMode
deriving DecidableEq

/-- The rational 3/10, i.e. the literal `0.3` of main.rs line 28, given
in constructor form so that it evaluates inside the kernel. -/
def ratPoint3 : Rat := ⟨3, 10, by decide, by decide⟩

/-- The rational 0 in constructor form, used as an arbitrary timer
payload in concrete runs. -/
def rat0 : Rat := ⟨0, 1, by decide, by decide⟩

/-- The struct `TabPane` of main.rs (lines 5-8). -/
structure TabPane where
  tab_pos : Nat
  pane_id : Nat
deriving DecidableEq

/-- The struct `State` of main.rs (lines 10-20). -/
structure State where
  is_enabled : Bool
  permissions_granted : Bool
  lock_trigger_cmds : List String
  reaction_seconds : Rat
  timer_scheduled : Bool
  latest_tab_pane : TabPane
  latest_mode : InputMode
  latest_running_command : String
  print_to_log : Bool
deriving DecidableEq

/-- `impl Default for State` of main.rs (lines 22-39). -/
def State.default : State :=
  { is_enabled := true
    permissions_granted := false
    lock_trigger_cmds := ["vim", "nvim"]
    reaction_seconds := ratPoint3
    timer_scheduled := false
    latest_tab_pane := ⟨usizeMAX, u32MAX⟩
    latest_mode := InputMode.Normal
    latest_running_command := ""
    print_to_log := false }

/-- Host side effects requested by the plugin, in the order they are
issued inside a handler. -/
inductive Effect where
  | SwitchToInputMode : InputMode → Effect
  | ListClients : Effect
  | SetTimeout : Rat → Effect
  | HideSelf : Effect
deriving DecidableEq

/-- One entry of a zellij `TabInfo` payload: the tab's ordinal position
and whether it is the focused ("active") tab. -/
structure TabInfo where
  position : Nat
  active : Bool
deriving DecidableEq

/-- One entry of a zellij pane snapshot: the pane's numeric id and its
focus flag. -/
structure PaneInfo where
  id : Nat
  is_focused : Bool
deriving DecidableEq

/-- Zellij `PaneManifest`: panes grouped by tab position (the Rust
`BTreeMap<usize, Vec<PaneInfo>>` as an association list). -/
structure PaneManifest where
  panes : List (Nat × List PaneInfo)
deriving DecidableEq

/-- One zellij `ClientInfo`: whether this entry is the current client
and the command it reports as running. -/
structure ClientInfo where
  is_current_client : Bool
  running_command : String
deriving DecidableEq

/-- The slice of zellij `ModeInfo` the plugin reads. -/
structure ModeInfo where
  mode : InputMode
deriving DecidableEq

/-- Zellij `PermissionStatus`. -/
inductive PermissionStatus where
  | Granted : PermissionStatus
  | Denied : PermissionStatus
deriving DecidableEq

/-- The host events the plugin subscribes to (main.rs lines 50-58);
`Other` stands for the wildcard arm of the `match` in `update`. -/
inductive Event where
  | PermissionRequestResult : PermissionStatus → Event
  | ModeUpdate : ModeInfo → Event
  | InputReceived : Event
  | TabUpdate : List TabInfo → Event
  | PaneUpdate : PaneManifest → Event
  | ListClients : List ClientInfo → Event
  | Timer : Rat → Event
  | Other : Event
deriving DecidableEq

/-- A zellij `PipeMessage` restricted to the one field main.rs reads. -/
structure PipeMessage where
  payload : Option String
deriving DecidableEq

/-- Modelled from the spec: the host helper `get_focused_tab` of the
zellij-tile crate (not part of this repository) — the focused tab of a
tab snapshot, where "each tab carries an ordinal position and a focus
flag". -/
def get_focused_tab (tabs : List TabInfo) : Option TabInfo :=
  tabs.find? (fun t => t.active)

/-- Modelled from the spec: the host helper `get_focused_pane` of the
zellij-tile crate (not part of this repository) — "look up the focused
pane within the currently tracked tab position only". -/
def get_focused_pane (tab_position : Nat) (pm : PaneManifest) : Option PaneInfo :=
  match pm.panes.lookup tab_position with
  | some panes => panes.find? (fun p => p.is_focused)
  | none => none

/-- `State::start_timer` of main.rs (lines 236-241): arm the host timer
only when enabled and no timer is outstanding. -/
def State.start_timer (s : State) : State × List Effect :=
  if s.is_enabled && !s.timer_scheduled then
    ({ s with timer_scheduled := true }, [Effect.SetTimeout s.reaction_seconds])
  else
    (s, [])

/-- Basename extraction of main.rs lines 123-128 applied to one token:
`token.split('/').last().unwrap_or("")`. -/
def exeOf (token : String) : String :=
  (splitOnChar '/' token).getLastD ""

/-- The trigger classification of main.rs lines 118-131, taking the raw
reported command: trim it, skip the `"N/A"` sentinel, otherwise test the
trimmed string and the basename of its first whitespace token against
the trigger set.  `none` models the Rust panic of indexing `[0]` into
the empty token vector of a whitespace-only command. -/
def classify (triggers : List String) (reported : String) : Option Bool :=
  let rc := rustTrim reported
  if rc = "N/A" then some false
  else
    match splitWhitespace rc with
    | [] => none
    | tok :: _ => some (triggers.contains rc || triggers.contains (exeOf tok))

/-- Basename of the first whitespace-delimited token of an already
trimmed command, with the empty-token case collapsed to `""`; the total
companion of the classification used to state its correctness. -/
def exeOfFirstToken (rc : String) : String :=
  match splitWhitespace rc with
  | [] => ""
  | tok :: _ => exeOf tok

/-- Lines 145-163 of main.rs: from the classifier verdict compute the
target mode, issue the guarded switch, and rearm the debounce timer when
the observed running command changed.  `rc` is the trimmed command. -/
def afterClassify (s : State) (rc : String) (is_trigger_cmd : Bool) :
    State × List Effect :=
  let target_input_mode :=
    if is_trigger_cmd then InputMode.Locked
    else if s.latest_mode = InputMode.Locked then InputMode.Normal
    else s.latest_mode
  let switchEff :=
    if s.latest_mode ≠ target_input_mode ∧
        (s.latest_mode = InputMode.Locked ∨ s.latest_mode = InputMode.Normal) then
      [Effect.SwitchToInputMode target_input_mode]
    else []
  if rc ≠ s.latest_running_command then
    let stepped := State.start_timer { s with latest_running_command := rc }
    (stepped.1, switchEff ++ stepped.2)
  else
    (s, switchEff)

/-- The `Event::ListClients` arm of `State::update` (main.rs lines
113-166). -/
def listClientsStep (s : State) (clients : List ClientInfo) :
    Option (State × List Effect) :=
  if s.is_enabled then
    match clients.find? (fun c => c.is_current_client && !(rustIsEmpty c.running_command)) with
    | some c =>
      match classify s.lock_trigger_cmds c.running_command with
      | some trig => some (afterClassify s (rustTrim c.running_command) trig)
      | none => none
    | none => some (s, [])
  else some (s, [])

/-- `State::update` of main.rs (lines 65-176).  The Rust handler also
returns a redraw flag that is the constant `false`; it carries no
information and is omitted.  `none` models a panic inside the handler. -/
def State.update (s : State) (e : Event) : Option (State × List Effect) :=
  match e with
  | Event.PermissionRequestResult p =>
    let granted := match p with
      | PermissionStatus.Granted => true
      | PermissionStatus.Denied => false
    some ({ s with permissions_granted := granted },
          if granted then [Effect.HideSelf] else [])
  | Event.ModeUpdate mi =>
    let stepped := State.start_timer { s with latest_mode := mi.mode }
    some stepped
  | Event.InputReceived =>
    some s.start_timer
  | Event.TabUpdate tabs =>
    match get_focused_tab tabs with
    | some tab =>
      if tab.position ≠ s.latest_tab_pane.tab_pos then
        some ({ s with latest_tab_pane := ⟨tab.position, u32MAX⟩ }, [])
      else some (s, [])
    | none => some (s, [])
  | Event.PaneUpdate pm =>
    match get_focused_pane s.latest_tab_pane.tab_pos pm with
    | some pane =>
      if pane.id ≠ s.latest_tab_pane.pane_id then
        some ({ s with latest_tab_pane := ⟨s.latest_tab_pane.tab_pos, pane.id⟩ },
              [Effect.ListClients])
      else some (s, [])
    | none => some (s, [])
  | Event.ListClients clients => listClientsStep s clients
  | Event.Timer _ =>
    some ({ s with timer_scheduled := false }, [Effect.ListClients])
  | Event.Other => some (s, [])

/-- The payload dispatch of `State::pipe` (main.rs lines 179-198). -/
def applyPayload (s : State) (payload : Option String) : State :=
  match payload with
  | some action =>
    if action = "enable" then { s with is_enabled := true }
    else if action = "disable" then { s with is_enabled := false }
    else if action = "toggle" then { s with is_enabled := !s.is_enabled }
    else s
  | none => s

/-- `State::pipe` of main.rs (lines 178-206): apply the payload, then —
when enabled — request the client list and arm the debounce timer.  The
constant-`false` redraw flag is omitted as in `State.update`. -/
def State.pipe (s : State) (msg : PipeMessage) : State × List Effect :=
  let s1 := applyPayload s msg.payload
  if s1.is_enabled then
    let stepped := s1.start_timer
    (stepped.1, Effect.ListClients :: stepped.2)
  else (s1, [])

/-- Truthiness test of main.rs lines 214 and 226:
`matches!(v.trim(), "true" | "t" | "y" | "1")`. -/
def truthy (v : String) : Bool :=
  rustTrim v = "true" || rustTrim v = "t" || rustTrim v = "y" || rustTrim v = "1"

/-- `State::load_configuration` of main.rs (lines 212-235).  The `f64`
grammar of `str::parse::<f64>` belongs to the Rust standard library, so
it is abstracted as the parameter `parseF64`; the `unwrap` on its result
(line 223) is the `none` outcome, modelling the fatal startup panic. -/
def load_configuration (parseF64 : String → Option Rat) (s0 : State)
    (cfg : List (String × String)) : Option State :=
  let s1 := match cfg.lookup "is_enabled" with
    | some v => { s0 with is_enabled := truthy v }
    | none => s0
  let s2 := match cfg.lookup "triggers" with
    | some v => { s1 with lock_trigger_cmds := (splitOnChar '|' v).map rustTrim }
    | none => s1
  let finish := fun (s : State) =>
    match cfg.lookup "print_to_log" with
    | some v => { s with print_to_log := truthy v }
    | none => s
  match cfg.lookup "reaction_seconds" with
  | some v =>
    match parseF64 v with
    | some r => some (finish { s2 with reaction_seconds := r })
    | none => none
  | none => some (finish s2)

/-- Processing of a whole event sequence: thread the state through
`State.update`, concatenating the requested effects; a panic anywhere
aborts the run. -/
def runEvents (s : State) : List Event → Option (State × List Effect)
  | [] => some (s, [])
  | e :: es =>
    match s.update e with
    | some (s1, effs1) =>
      match runEvents s1 es with
      | some (s2, effs2) => some (s2, effs1 ++ effs2)
      | none => none
    | none => none

/-- Whether an event is the timer-elapsed notification. -/
def isTimerEvt : Event → Bool
  | Event.Timer _ => true
  | _ => false

/-- Number of `SetTimeout` requests (timer armings) in an effect list. -/
def countSetTimeout : List Effect → Nat
  | [] => 0
  | Effect.SetTimeout _ :: rest => countSetTimeout rest + 1
  | _ :: rest => countSetTimeout rest

/-- Number of timer-elapsed events in an event sequence. -/
def countTimerEvents : List Event → Nat
  | [] => 0
  | Event.Timer _ :: rest => countTimerEvents rest + 1
  | _ :: rest => countTimerEvents rest

/-- Numeric value of a boolean flag. -/
def b2n (b : Bool) : Nat := if b then 1 else 0

/-- Well-formed host timer delivery along a run: a timer-elapsed event
is only delivered while the plugin believes a timer is outstanding (the
host fires each armed one-shot timer exactly once). -/
def legalFrom (s : State) : List Event → Bool
  | [] => true
  | e :: es =>
    (!(isTimerEvt e) || s.timer_scheduled) &&
      (match s.update e with
       | some (s1, _) => legalFrom s1 es
       | none => true)

/-- Whether an effect is a mode-switch command. -/
def isSwitchEff : Effect → Bool
  | Effect.SwitchToInputMode _ => true
  | _ => false

/-- The timer effects produced by `start_timer` never contain a mode
switch. -/
lemma switch_not_mem_start_timer (s : State) (m : InputMode) :
    Effect.SwitchToInputMode m ∉ (State.start_timer s).2 := by
  simp only [State.start_timer]
  split <;> simp

/-- Membership of a mode switch in a guarded singleton effect list. -/
lemma mem_switch_ite (P : Prop) [Decidable P] (t m : InputMode) :
    Effect.SwitchToInputMode m ∈
        (if P then [Effect.SwitchToInputMode t] else []) ↔ (P ∧ m = t) := by
  by_cases h : P
  · simp [h]
  · simp [h]

/-- Membership of a mode-switch effect in the output of `afterClassify`
is exactly the guard of main.rs lines 153-158: the target differs from
the last known mode and the last known mode is `Locked` or `Normal`. -/
lemma switch_mem_afterClassify (s : State) (rc : String) (trig : Bool) (m : InputMode) :
    Effect.SwitchToInputMode m ∈ (afterClassify s rc trig).2 ↔
      (m = (if trig then InputMode.Locked
            else if s.latest_mode = InputMode.Locked then InputMode.Normal
            else s.latest_mode) ∧
       s.latest_mode ≠ m ∧
       (s.latest_mode = InputMode.Locked ∨ s.latest_mode = InputMode.Normal)) := by
  simp only [afterClassify]
  generalize (if trig then InputMode.Locked
      else if s.latest_mode = InputMode.Locked then InputMode.Normal
      else s.latest_mode) = t
  by_cases hrc : rc ≠ s.latest_running_command
  · rw [if_pos hrc]
    simp only [List.mem_append, mem_switch_ite]
    have hnt := switch_not_mem_start_timer { s with latest_running_command := rc } m
    constructor
    · rintro (⟨⟨h1, h2⟩, h3⟩ | hmem)
      · subst h3
        exact ⟨rfl, h1, h2⟩
      · exact absurd hmem hnt
    · rintro ⟨h3, h1, h2⟩
      subst h3
      exact Or.inl ⟨⟨h1, h2⟩, rfl⟩
  · rw [if_neg hrc]
    rw [mem_switch_ite]
    constructor
    · rintro ⟨⟨h1, h2⟩, h3⟩
      subst h3
      exact ⟨rfl, h1, h2⟩
    · rintro ⟨h3, h1, h2⟩
      subst h3
      exact ⟨⟨h1, h2⟩, rfl⟩

/-- Claim C1 (Mode Transition Guard): on a client-list inspection with a
current client whose reported command classifies to `trig`, a mode
switch is issued if and only if the computed target mode — `Locked` when
`trig` holds, `Normal` when `trig` fails with the last known mode
`Locked`, the unchanged mode otherwise — differs from the last known
mode and the last known mode is exactly `Locked` or exactly `Normal`. -/
theorem C1_mode_transition_guard (s : State) (clients : List ClientInfo)
    (c : ClientInfo) (trig : Bool) (s' : State) (effs : List Effect)
    (hen : s.is_enabled = true)
    (hfind : clients.find? (fun c => c.is_current_client && !(rustIsEmpty c.running_command)) = some c)
    (htrig : classify s.lock_trigger_cmds c.running_command = some trig)
    (hupd : s.update (Event.ListClients clients) = some (s', effs))
    (m : InputMode) :
    Effect.SwitchToInputMode m ∈ effs ↔
      (m = (if trig then InputMode.Locked
            else if s.latest_mode = InputMode.Locked then InputMode.Normal
            else s.latest_mode) ∧
       s.latest_mode ≠ m ∧
       (s.latest_mode = InputMode.Locked ∨ s.latest_mode = InputMode.Normal)) := by
  simp only [State.update, listClientsStep, hen, hfind, htrig, if_true,
    Option.some.injEq] at hupd
  have heffs : effs = (afterClassify s (rustTrim c.running_command) trig).2 := by
    rw [hupd]
  rw [heffs]
  exact switch_mem_afterClassify s (rustTrim c.running_command) trig m

/-- Concrete instance of C1: under the default configuration, a client
running `vim` in `Normal` mode yields exactly the switch to `Locked`. -/
theorem C1_witness :
    Effect.SwitchToInputMode InputMode.Locked ∈
        [Effect.SwitchToInputMode InputMode.Locked, Effect.SetTimeout ratPoint3] ↔
      (InputMode.Locked = (if true then InputMode.Locked
            else if State.default.latest_mode = InputMode.Locked then InputMode.Normal
            else State.default.latest_mode) ∧
       State.default.latest_mode ≠ InputMode.Locked ∧
       (State.default.latest_mode = InputMode.Locked ∨
        State.default.latest_mode = InputMode.Normal)) :=
  C1_mode_transition_guard State.default [⟨true, "vim"⟩] ⟨true, "vim"⟩ true
    { State.default with latest_running_command := "vim", timer_scheduled := true }
    [Effect.SwitchToInputMode InputMode.Locked, Effect.SetTimeout ratPoint3]
    (by decide) (by decide) (by decide) (by decide) InputMode.Locked

/-- Claim C3 fails as stated: with the trigger set containing the string
literal of the sentinel, the reported command `" N/A "` is distinct from
the sentinel and its trimmed form is a member of the trigger set, yet
the classifier yields `false` — the sentinel comparison happens after
trimming, not on the raw reported command. -/
theorem C3_counterexample :
    " N/A " ≠ "N/A" ∧
    rustTrim " N/A " ∈ ["N/A"] ∧
    classify ["N/A"] " N/A " = some false := by decide

/-- Claim C3 as amended: the reported command is trimmed first; if the
trimmed command equals the sentinel the result is `false` with no
trigger computation, and otherwise, whenever the classifier completes,
its verdict is `true` iff the trimmed string or the basename of its
first whitespace-delimited token is a member of the trigger set. -/
theorem C3_classifier (T : List String) (reported : String) :
    (rustTrim reported = "N/A" → classify T reported = some false) ∧
    (∀ b : Bool, rustTrim reported ≠ "N/A" → classify T reported = some b →
      (b = true ↔
        rustTrim reported ∈ T ∨ exeOfFirstToken (rustTrim reported) ∈ T)) := by
  constructor
  · intro h
    simp [classify, h]
  · intro b hne hb
    simp only [classify, if_neg hne] at hb
    cases hsw : splitWhitespace (rustTrim reported) with
    | nil => rw [hsw] at hb; cases hb
    | cons tok rest =>
      rw [hsw] at hb
      injection hb with hb
      simp only [exeOfFirstToken, hsw]
      rw [← hb]
      simp [List.contains, List.elem_iff]

/-- Concrete instance of C3 as amended: `"/usr/bin/vim file.txt"` is a
trigger for the set containing `"vim"` by basename match. -/
theorem C3_witness :
    true = true ↔
      rustTrim "/usr/bin/vim file.txt" ∈ ["vim"] ∨
      exeOfFirstToken (rustTrim "/usr/bin/vim file.txt") ∈ ["vim"] :=
  (C3_classifier ["vim"] "/usr/bin/vim file.txt").2 true (by decide) (by decide)

/-- Claim C4 fails on the code: a whitespace-only reported command
passes the non-empty filter, trims to the empty string, and the
classification then indexes position 0 of an empty token vector — a
panic, modelled as `none`; the directly empty command likewise has no
first token. -/
theorem C4_classifier_panics :
    classify State.default.lock_trigger_cmds " " = none ∧
    classify State.default.lock_trigger_cmds "" = none ∧
    State.default.update (Event.ListClients [⟨true, " "⟩]) = none := by decide

/-- Claim C6 (Focus Tracker): a tab notification whose focused tab
position differs from the tracked one replaces the tracked location with
that position and an unset pane; a pane notification consults only the
entry of the tracked tab position — when that entry holds no focused
pane nothing is updated and no focus change is signalled, pane snapshots
of other tabs are ignored entirely, and the tracked tab position is
never changed by a pane notification. -/
theorem C6_focus_tracker (s : State) :
    (∀ (tabs : List TabInfo) (tab : TabInfo),
        get_focused_tab tabs = some tab →
        tab.position ≠ s.latest_tab_pane.tab_pos →
        s.update (Event.TabUpdate tabs) =
          some ({ s with latest_tab_pane := ⟨tab.position, u32MAX⟩ }, [])) ∧
    (∀ pm : PaneManifest,
        get_focused_pane s.latest_tab_pane.tab_pos pm = none →
        s.update (Event.PaneUpdate pm) = some (s, [])) ∧
    (∀ pm pm' : PaneManifest,
        pm.panes.lookup s.latest_tab_pane.tab_pos =
          pm'.panes.lookup s.latest_tab_pane.tab_pos →
        s.update (Event.PaneUpdate pm) = s.update (Event.PaneUpdate pm')) ∧
    (∀ (pm : PaneManifest) (s' : State) (effs : List Effect),
        s.update (Event.PaneUpdate pm) = some (s', effs) →
        s'.latest_tab_pane.tab_pos = s.latest_tab_pane.tab_pos) := by
  refine ⟨?_, ?_, ?_, ?_⟩
  · intro tabs tab htab hne
    simp [State.update, htab, hne]
  · intro pm hfp
    simp [State.update, hfp]
  · intro pm pm' hlk
    simp only [State.update, get_focused_pane, hlk]
  · intro pm s' effs hupd
    cases hfp : get_focused_pane s.latest_tab_pane.tab_pos pm with
    | none =>
      simp only [State.update, hfp, Option.some.injEq, Prod.mk.injEq] at hupd
      obtain ⟨h1, h2⟩ := hupd
      subst h1
      rfl
    | some pane =>
      simp only [State.update, hfp] at hupd
      by_cases hid : pane.id ≠ s.latest_tab_pane.pane_id
      · rw [if_pos hid] at hupd
        simp only [Option.some.injEq, Prod.mk.injEq] at hupd
        obtain ⟨h1, h2⟩ := hupd
        subst h1
        rfl
      · rw [if_neg hid] at hupd
        simp only [Option.some.injEq, Prod.mk.injEq] at hupd
        obtain ⟨h1, h2⟩ := hupd
        subst h1
        rfl

/-- Concrete instance of C6: a tab notification focused on position 3
resets the tracked location of the default state to tab 3 with the pane
sentinel. -/
theorem C6_witness :
    State.default.update (Event.TabUpdate [⟨3, true⟩]) =
      some ({ State.default with latest_tab_pane := ⟨3, u32MAX⟩ }, []) :=
  (C6_focus_tracker State.default).1 [⟨3, true⟩] ⟨3, true⟩ (by decide) (by decide)

lemma countSetTimeout_append (a b : List Effect) :
    countSetTimeout (a ++ b) = countSetTimeout a + countSetTimeout b := by
  induction a with
  | nil => simp [countSetTimeout]
  | cons x rest ih =>
    cases x <;> simp [countSetTimeout, ih] <;> omega

lemma countTimerEvents_cons (e : Event) (es : List Event) :
    countTimerEvents (e :: es) = b2n (isTimerEvt e) + countTimerEvents es := by
  cases e <;> simp [countTimerEvents, isTimerEvt, b2n] <;> omega

lemma countSetTimeout_switch_ite (P : Prop) [Decidable P] (t : InputMode) :
    countSetTimeout (if P then [Effect.SwitchToInputMode t] else []) = 0 := by
  split <;> rfl

/-- Arming accounting for `start_timer`: new armings plus the previous
outstanding count equal the resulting outstanding count. -/
lemma start_timer_count (s : State) :
    countSetTimeout (s.start_timer).2 + b2n s.timer_scheduled =
      b2n (s.start_timer).1.timer_scheduled := by
  simp only [State.start_timer]
  by_cases he : s.is_enabled = true <;> by_cases hsch : s.timer_scheduled = true <;>
    simp [he, hsch, countSetTimeout, b2n] <;> simp_all

lemma start_timer_flag (s : State) (h : s.timer_scheduled = true) :
    (s.start_timer).1.timer_scheduled = true := by
  simp only [State.start_timer]
  split <;> simp [h]

lemma afterClassify_count (s : State) (rc : String) (trig : Bool) :
    countSetTimeout (afterClassify s rc trig).2 + b2n s.timer_scheduled =
      b2n (afterClassify s rc trig).1.timer_scheduled := by
  simp only [afterClassify]
  by_cases hrc : rc ≠ s.latest_running_command
  · rw [if_pos hrc]
    simp only [countSetTimeout_append, countSetTimeout_switch_ite]
    have h := start_timer_count { s with latest_running_command := rc }
    simpa using h
  · rw [if_neg hrc]
    simp only [countSetTimeout_switch_ite]
    omega

lemma afterClassify_sched_true (s : State) (rc : String) (trig : Bool)
    (h : s.timer_scheduled = true) :
    (afterClassify s rc trig).1.timer_scheduled = true := by
  simp only [afterClassify]
  by_cases hrc : rc ≠ s.latest_running_command
  · rw [if_pos hrc]
    exact start_timer_flag { s with latest_running_command := rc } h
  · rw [if_neg hrc]
    exact h

/-- Per-event arming accounting: new armings plus the prior outstanding
count equal fired timers plus the new outstanding count, given that a
timer event is only delivered while one is outstanding. -/
lemma update_timer_count (s : State) (e : Event) (s' : State) (effs : List Effect)
    (hleg : isTimerEvt e = true → s.timer_scheduled = true)
    (hupd : s.update e = some (s', effs)) :
    countSetTimeout effs + b2n s.timer_scheduled =
      b2n (isTimerEvt e) + b2n s'.timer_scheduled := by
  cases e with
  | PermissionRequestResult p =>
    cases p <;>
      simp only [State.update, Option.some.injEq, Prod.mk.injEq] at hupd <;>
      (obtain ⟨h1, h2⟩ := hupd
       subst h1
       simp [← h2, countSetTimeout, isTimerEvt, b2n])
  | ModeUpdate mi =>
    simp only [State.update, Option.some.injEq] at hupd
    have h := start_timer_count { s with latest_mode := mi.mode }
    rw [hupd] at h
    simpa [isTimerEvt, b2n] using h
  | InputReceived =>
    simp only [State.update, Option.some.injEq] at hupd
    have h := start_timer_count s
    rw [hupd] at h
    simpa [isTimerEvt, b2n] using h
  | TabUpdate tabs =>
    cases hft : get_focused_tab tabs with
    | none =>
      simp only [State.update, hft, Option.some.injEq, Prod.mk.injEq] at hupd
      obtain ⟨h1, h2⟩ := hupd
      subst h1
      simp [← h2, countSetTimeout, isTimerEvt, b2n]
    | some tab =>
      simp only [State.update, hft] at hupd
      split at hupd <;>
        (simp only [Option.some.injEq, Prod.mk.injEq] at hupd
         obtain ⟨h1, h2⟩ := hupd
         subst h1
         simp [← h2, countSetTimeout, isTimerEvt, b2n])
  | PaneUpdate pm =>
    cases hfp : get_focused_pane s.latest_tab_pane.tab_pos pm with
    | none =>
      simp only [State.update, hfp, Option.some.injEq, Prod.mk.injEq] at hupd
      obtain ⟨h1, h2⟩ := hupd
      subst h1
      simp [← h2, countSetTimeout, isTimerEvt, b2n]
    | some pane =>
      simp only [State.update, hfp] at hupd
      split at hupd <;>
        (simp only [Option.some.injEq, Prod.mk.injEq] at hupd
         obtain ⟨h1, h2⟩ := hupd
         subst h1
         simp [← h2, countSetTimeout, isTimerEvt, b2n])
  | ListClients clients =>
    simp only [State.update, listClientsStep] at hupd
    by_cases hen : s.is_enabled = true
    · rw [if_pos hen] at hupd
      cases hfind : clients.find?
          (fun c => c.is_current_client && !(rustIsEmpty c.running_command)) with
      | none =>
        simp only [hfind, Option.some.injEq, Prod.mk.injEq] at hupd
        obtain ⟨h1, h2⟩ := hupd
        subst h1
        simp [← h2, countSetTimeout, isTimerEvt, b2n]
      | some c =>
        simp only [hfind] at hupd
        cases hcl : classify s.lock_trigger_cmds c.running_command with
        | none => rw [hcl] at hupd; cases hupd
        | some trig =>
          rw [hcl] at hupd
          simp only [Option.some.injEq] at hupd
          have h := afterClassify_count s (rustTrim c.running_command) trig
          rw [hupd] at h
          simpa [isTimerEvt, b2n] using h
    · rw [if_neg hen] at hupd
      simp only [Option.some.injEq, Prod.mk.injEq] at hupd
      obtain ⟨h1, h2⟩ := hupd
      subst h1
      simp [← h2, countSetTimeout, isTimerEvt, b2n]
  | Timer t =>
    simp only [State.update, Option.some.injEq, Prod.mk.injEq] at hupd
    obtain ⟨h1, h2⟩ := hupd
    subst h1
    have hs : s.timer_scheduled = true := hleg rfl
    simp [← h2, countSetTimeout, isTimerEvt, b2n, hs]
  | Other =>
    simp only [State.update, Option.some.injEq, Prod.mk.injEq] at hupd
    obtain ⟨h1, h2⟩ := hupd
    subst h1
    simp [← h2, countSetTimeout, isTimerEvt, b2n]

/-- Arming accounting along a whole legal run. -/
lemma runEvents_timer_count : ∀ (es : List Event) (s s' : State) (effs : List Effect),
    legalFrom s es = true → runEvents s es = some (s', effs) →
    countSetTimeout effs + b2n s.timer_scheduled =
      countTimerEvents es + b2n s'.timer_scheduled := by
  intro es
  induction es with
  | nil =>
    intro s s' effs _ hrun
    simp only [runEvents, Option.some.injEq, Prod.mk.injEq] at hrun
    obtain ⟨h1, h2⟩ := hrun
    subst h1
    simp [← h2, countSetTimeout, countTimerEvents]
  | cons e es ih =>
    intro s s' effs hleg hrun
    cases hu : s.update e with
    | none =>
      simp only [runEvents, hu] at hrun
      cases hrun
    | some p =>
      obtain ⟨s1, effs1⟩ := p
      simp only [runEvents, hu] at hrun
      cases hr : runEvents s1 es with
      | none => rw [hr] at hrun; cases hrun
      | some q =>
        obtain ⟨s2, effs2⟩ := q
        rw [hr] at hrun
        simp only [Option.some.injEq, Prod.mk.injEq] at hrun
        obtain ⟨h1, h2⟩ := hrun
        subst h1
        simp only [legalFrom, hu, Bool.and_eq_true] at hleg
        obtain ⟨hleg1, hleg2⟩ := hleg
        have hstep := update_timer_count s e s1 effs1
          (fun ht => by
            cases hb : s.timer_scheduled
            · rw [ht, hb] at hleg1; cases hleg1
            · rfl) hu
        have htail := ih s1 _ effs2 hleg2 hr
        rw [← h2, countSetTimeout_append, countTimerEvents_cons]
        omega

/-- Claim C2 (Debounce invariant): arming while a timer is already
scheduled is a no-op; along every event sequence with well-formed timer
delivery, the number of timers armed equals the number of timer fires
plus at most one still-outstanding timer (so at most one timer is ever
outstanding, and arming twice before a fire yields one eventual fire);
and while a timer is outstanding the scheduled flag is cleared by an
event exactly when that event is the timer firing. -/
theorem C2_debounce_invariant (es : List Event) :
    (∀ s : State, s.timer_scheduled = true → s.start_timer = (s, [])) ∧
    (∀ (s' : State) (effs : List Effect),
        legalFrom State.default es = true →
        runEvents State.default es = some (s', effs) →
        countSetTimeout effs = countTimerEvents es + b2n s'.timer_scheduled) ∧
    (∀ (s s' : State) (e : Event) (effs : List Effect),
        s.timer_scheduled = true → s.update e = some (s', effs) →
        (s'.timer_scheduled = false ↔ isTimerEvt e = true)) := by
  refine ⟨?_, ?_, ?_⟩
  · intro s h
    simp [State.start_timer, h]
  · intro s' effs hleg hrun
    have h := runEvents_timer_count es State.default s' effs hleg hrun
    simpa [State.default, b2n] using h
  · intro s s' e effs hs hupd
    have hcount := update_timer_count s e s' effs (fun _ => hs) hupd
    cases e with
    | Timer t =>
      simp only [State.update, Option.some.injEq, Prod.mk.injEq] at hupd
      obtain ⟨h1, h2⟩ := hupd
      subst h1
      simp [isTimerEvt]
    | ListClients clients =>
      simp only [State.update, listClientsStep] at hupd
      by_cases hen : s.is_enabled = true
      · rw [if_pos hen] at hupd
        cases hfind : clients.find?
            (fun c => c.is_current_client && !(rustIsEmpty c.running_command)) with
        | none =>
          simp only [hfind, Option.some.injEq, Prod.mk.injEq] at hupd
          obtain ⟨h1, h2⟩ := hupd
          subst h1
          simp [isTimerEvt, hs]
        | some c =>
          simp only [hfind] at hupd
          cases hcl : classify s.lock_trigger_cmds c.running_command with
          | none => rw [hcl] at hupd; cases hupd
          | some trig =>
            rw [hcl] at hupd
            simp only [Option.some.injEq] at hupd
            have hflag := afterClassify_sched_true s (rustTrim c.running_command) trig hs
            rw [hupd] at hflag
            simp only [isTimerEvt, Bool.false_eq_true, iff_false, Bool.not_eq_false]
            exact hflag
      · rw [if_neg hen] at hupd
        simp only [Option.some.injEq, Prod.mk.injEq] at hupd
        obtain ⟨h1, h2⟩ := hupd
        subst h1
        simp [isTimerEvt, hs]
    | PermissionRequestResult p =>
      simp only [State.update, Option.some.injEq, Prod.mk.injEq] at hupd
      obtain ⟨h1, h2⟩ := hupd
      subst h1
      simp [isTimerEvt, hs]
    | ModeUpdate mi =>
      simp only [State.update, Option.some.injEq] at hupd
      have hflag := start_timer_flag { s with latest_mode := mi.mode } hs
      rw [hupd] at hflag
      simp only [isTimerEvt, Bool.false_eq_true, iff_false, Bool.not_eq_false]
      exact hflag
    | InputReceived =>
      simp only [State.update, Option.some.injEq] at hupd
      have hflag := start_timer_flag s hs
      rw [hupd] at hflag
      simp only [isTimerEvt, Bool.false_eq_true, iff_false, Bool.not_eq_false]
      exact hflag
    | TabUpdate tabs =>
      cases hft : get_focused_tab tabs with
      | none =>
        simp only [State.update, hft, Option.some.injEq, Prod.mk.injEq] at hupd
        obtain ⟨h1, h2⟩ := hupd
        subst h1
        simp [isTimerEvt, hs]
      | some tab =>
        simp only [State.update, hft] at hupd
        split at hupd <;>
          (simp only [Option.some.injEq, Prod.mk.injEq] at hupd
           obtain ⟨h1, h2⟩ := hupd
           subst h1
           simp [isTimerEvt, hs])
    | PaneUpdate pm =>
      cases hfp : get_focused_pane s.latest_tab_pane.tab_pos pm with
      | none =>
        simp only [State.update, hfp, Option.some.injEq, Prod.mk.injEq] at hupd
        obtain ⟨h1, h2⟩ := hupd
        subst h1
        simp [isTimerEvt, hs]
      | some pane =>
        simp only [State.update, hfp] at hupd
        split at hupd <;>
          (simp only [Option.some.injEq, Prod.mk.injEq] at hupd
           obtain ⟨h1, h2⟩ := hupd
           subst h1
           simp [isTimerEvt, hs])
    | Other =>
      simp only [State.update, Option.some.injEq, Prod.mk.injEq] at hupd
      obtain ⟨h1, h2⟩ := hupd
      subst h1
      simp [isTimerEvt, hs]

/-- Concrete instance of C2: two raw-input notifications inside one
debounce window arm exactly one timer, which fires exactly once. -/
theorem C2_witness :
    countSetTimeout [Effect.SetTimeout ratPoint3, Effect.ListClients] =
      countTimerEvents [Event.InputReceived, Event.InputReceived, Event.Timer rat0] +
        b2n State.default.timer_scheduled :=
  (C2_debounce_invariant [Event.InputReceived, Event.InputReceived, Event.Timer rat0]).2.1
    State.default [Effect.SetTimeout ratPoint3, Effect.ListClients]
    (by decide) (by decide)

lemma start_timer_enabled_preserved (s : State) :
    (s.start_timer).1.is_enabled = s.is_enabled := by
  simp only [State.start_timer]
  split <;> rfl

lemma start_timer_flag_of_enabled (s : State) (h : s.is_enabled = true) :
    (s.start_timer).1.timer_scheduled = true := by
  by_cases hsch : s.timer_scheduled = true <;>
    simp [State.start_timer, h, hsch] <;> simp_all

lemma filter_isSwitchEff_start_timer (s : State) :
    (s.start_timer).2.filter isSwitchEff = [] := by
  simp only [State.start_timer]
  split <;> rfl

lemma filter_isSwitchEff_ite (P : Prop) [Decidable P] (t : InputMode) :
    (List.filter isSwitchEff
      (if P then [Effect.SwitchToInputMode t] else [])).length ≤ 1 := by
  split <;> simp [isSwitchEff]

lemma afterClassify_switch_len (s : State) (rc : String) (trig : Bool) :
    ((afterClassify s rc trig).2.filter isSwitchEff).length ≤ 1 := by
  simp only [afterClassify]
  by_cases hrc : rc ≠ s.latest_running_command
  · rw [if_pos hrc]
    rw [List.filter_append, filter_isSwitchEff_start_timer]
    simpa using filter_isSwitchEff_ite _ _
  · rw [if_neg hrc]
    exact filter_isSwitchEff_ite _ _

/-- Claim C5 fails as stated: right after a "disable" control message —
which does leave the controller disabled — a pane notification with a
changed focused pane still issues the client-list inspection request
(main.rs calls `list_clients()` in the `PaneUpdate` arm without checking
`is_enabled`). -/
theorem C5_counterexample :
    ((State.default.pipe ⟨some "disable"⟩).1.is_enabled = false) ∧
    (State.default.pipe ⟨some "disable"⟩).1.update
        (Event.PaneUpdate ⟨[(usizeMAX, [⟨5, true⟩])]⟩) =
      some ({ (State.default.pipe ⟨some "disable"⟩).1 with
                latest_tab_pane := ⟨usizeMAX, 5⟩ },
            [Effect.ListClients]) := by decide

/-- Claim C5 as amended: when disabled the arming operation schedules
nothing; a "disable" message leaves the controller disabled with no
immediate inspection; while disabled, events never issue a mode switch
and never arm a timer (and the flag stays disabled), and client-list
responses are ignored entirely — though the raw client-list query may
still be issued on pane focus changes and stale timer fires; enabling
(directly or by toggling from disabled) immediately requests one
inspection and leaves the debounce timer armed. -/
theorem C5_disabled_semantics :
    (∀ s : State, s.is_enabled = false → s.start_timer = (s, [])) ∧
    (∀ s : State, (s.pipe ⟨some "disable"⟩).1.is_enabled = false ∧
        (s.pipe ⟨some "disable"⟩).2 = []) ∧
    (∀ (s : State) (e : Event) (s' : State) (effs : List Effect),
        s.is_enabled = false → s.update e = some (s', effs) →
        s'.is_enabled = false ∧
        (∀ m, Effect.SwitchToInputMode m ∉ effs) ∧
        (∀ r, Effect.SetTimeout r ∉ effs)) ∧
    (∀ (s : State) (clients : List ClientInfo), s.is_enabled = false →
        s.update (Event.ListClients clients) = some (s, [])) ∧
    (∀ s : State, (s.pipe ⟨some "enable"⟩).1.is_enabled = true ∧
        Effect.ListClients ∈ (s.pipe ⟨some "enable"⟩).2 ∧
        (s.pipe ⟨some "enable"⟩).1.timer_scheduled = true) ∧
    (∀ s : State, s.is_enabled = false →
        (s.pipe ⟨some "toggle"⟩).1.is_enabled = true ∧
        Effect.ListClients ∈ (s.pipe ⟨some "toggle"⟩).2 ∧
        (s.pipe ⟨some "toggle"⟩).1.timer_scheduled = true) := by
  refine ⟨?_, ?_, ?_, ?_, ?_, ?_⟩
  · intro s h
    simp [State.start_timer, h]
  · intro s
    exact ⟨rfl, rfl⟩
  · intro s e s' effs hdis hupd
    cases e with
    | PermissionRequestResult p =>
      cases p <;>
        simp only [State.update, Option.some.injEq, Prod.mk.injEq] at hupd <;>
        (obtain ⟨h1, h2⟩ := hupd
         subst h1
         exact ⟨hdis, by simp [← h2], by simp [← h2]⟩)
    | ModeUpdate mi =>
      simp only [State.update, Option.some.injEq] at hupd
      have hst : State.start_timer { s with latest_mode := mi.mode } =
          ({ s with latest_mode := mi.mode }, []) := by
        simp [State.start_timer, hdis]
      rw [hst] at hupd
      simp only [Prod.mk.injEq] at hupd
      obtain ⟨h1, h2⟩ := hupd
      subst h1
      exact ⟨hdis, by simp [← h2], by simp [← h2]⟩
    | InputReceived =>
      simp only [State.update, Option.some.injEq] at hupd
      have hst : State.start_timer s = (s, []) := by
        simp [State.start_timer, hdis]
      rw [hst] at hupd
      simp only [Prod.mk.injEq] at hupd
      obtain ⟨h1, h2⟩ := hupd
      subst h1
      exact ⟨hdis, by simp [← h2], by simp [← h2]⟩
    | TabUpdate tabs =>
      cases hft : get_focused_tab tabs with
      | none =>
        simp only [State.update, hft, Option.some.injEq, Prod.mk.injEq] at hupd
        obtain ⟨h1, h2⟩ := hupd
        subst h1
        exact ⟨hdis, by simp [← h2], by simp [← h2]⟩
      | some tab =>
        simp only [State.update, hft] at hupd
        split at hupd <;>
          (simp only [Option.some.injEq, Prod.mk.injEq] at hupd
           obtain ⟨h1, h2⟩ := hupd
           subst h1
           exact ⟨hdis, by simp [← h2], by simp [← h2]⟩)
    | PaneUpdate pm =>
      cases hfp : get_focused_pane s.latest_tab_pane.tab_pos pm with
      | none =>
        simp only [State.update, hfp, Option.some.injEq, Prod.mk.injEq] at hupd
        obtain ⟨h1, h2⟩ := hupd
        subst h1
        exact ⟨hdis, by simp [← h2], by simp [← h2]⟩
      | some pane =>
        simp only [State.update, hfp] at hupd
        split at hupd <;>
          (simp only [Option.some.injEq, Prod.mk.injEq] at hupd
           obtain ⟨h1, h2⟩ := hupd
           subst h1
           exact ⟨hdis, by simp [← h2], by simp [← h2]⟩)
    | ListClients clients =>
      simp only [State.update, listClientsStep, hdis, Bool.false_eq_true,
        if_false, Option.some.injEq, Prod.mk.injEq] at hupd
      obtain ⟨h1, h2⟩ := hupd
      subst h1
      exact ⟨hdis, by simp [← h2], by simp [← h2]⟩
    | Timer t =>
      simp only [State.update, Option.some.injEq, Prod.mk.injEq] at hupd
      obtain ⟨h1, h2⟩ := hupd
      subst h1
      exact ⟨hdis, by simp [← h2], by simp [← h2]⟩
    | Other =>
      simp only [State.update, Option.some.injEq, Prod.mk.injEq] at hupd
      obtain ⟨h1, h2⟩ := hupd
      subst h1
      exact ⟨hdis, by simp [← h2], by simp [← h2]⟩
  · intro s clients hdis
    simp [State.update, listClientsStep, hdis]
  · intro s
    have hen : (applyPayload s (some "enable")).is_enabled = true := rfl
    refine ⟨?_, ?_, ?_⟩
    · show ((State.pipe s ⟨some "enable"⟩).1).is_enabled = true
      simp only [State.pipe, hen, if_true]
      rw [start_timer_enabled_preserved]
      exact hen
    · simp only [State.pipe, hen, if_true]
      exact List.mem_cons_self _ _
    · simp only [State.pipe, hen, if_true]
      exact start_timer_flag_of_enabled _ hen
  · intro s hdis
    have hen : (applyPayload s (some "toggle")).is_enabled = true := by
      simp [applyPayload, hdis]
    refine ⟨?_, ?_, ?_⟩
    · show ((State.pipe s ⟨some "toggle"⟩).1).is_enabled = true
      simp only [State.pipe, hen, if_true]
      rw [start_timer_enabled_preserved]
      exact hen
    · simp only [State.pipe, hen, if_true]
      exact List.mem_cons_self _ _
    · simp only [State.pipe, hen, if_true]
      exact start_timer_flag_of_enabled _ hen

/-- Concrete instance of C5 as amended: while disabled, a client-list
response reporting a trigger command is ignored outright. -/
theorem C5_witness :
    ({ State.default with is_enabled := false } : State).update
        (Event.ListClients [⟨true, "vim"⟩]) =
      some ({ State.default with is_enabled := false }, []) :=
  C5_disabled_semantics.2.2.2.1 { State.default with is_enabled := false }
    [⟨true, "vim"⟩] (by decide)

/-- Claim C7 fails as stated: in the enabled default state with no timer
outstanding, a pane notification that changes the focused pane leaves
the debounce timer unscheduled — it requests the client list immediately
instead of arming the timer. -/
theorem C7_counterexample :
    State.default.is_enabled = true ∧
    State.default.timer_scheduled = false ∧
    State.default.update (Event.PaneUpdate ⟨[(usizeMAX, [⟨5, true⟩])]⟩) =
      some ({ State.default with latest_tab_pane := ⟨usizeMAX, 5⟩ },
            [Effect.ListClients]) ∧
    ({ State.default with latest_tab_pane := ⟨usizeMAX, 5⟩ } : State).timer_scheduled
      = false := by decide

/-- Claim C7 as amended: a mode-update notification and a raw-input
notification arm the debounce timer when enabled and not already
scheduled; a pane notification that changes the focused pane does not
arm the timer but immediately requests a client-list inspection; the
timer is then armed by the client-list response handler whenever the
observed running command changed. -/
theorem C7_arming_sources :
    (∀ (s : State) (mi : ModeInfo), s.is_enabled = true → s.timer_scheduled = false →
        s.update (Event.ModeUpdate mi) =
          some ({ s with latest_mode := mi.mode, timer_scheduled := true },
                [Effect.SetTimeout s.reaction_seconds])) ∧
    (∀ s : State, s.is_enabled = true → s.timer_scheduled = false →
        s.update Event.InputReceived =
          some ({ s with timer_scheduled := true },
                [Effect.SetTimeout s.reaction_seconds])) ∧
    (∀ (s : State) (pm : PaneManifest) (pane : PaneInfo),
        get_focused_pane s.latest_tab_pane.tab_pos pm = some pane →
        pane.id ≠ s.latest_tab_pane.pane_id →
        s.update (Event.PaneUpdate pm) =
          some ({ s with latest_tab_pane := ⟨s.latest_tab_pane.tab_pos, pane.id⟩ },
                [Effect.ListClients])) ∧
    (∀ (s : State) (clients : List ClientInfo) (c : ClientInfo)
        (s' : State) (effs : List Effect),
        s.is_enabled = true → s.timer_scheduled = false →
        clients.find? (fun c => c.is_current_client && !(rustIsEmpty c.running_command)) = some c →
        rustTrim c.running_command ≠ s.latest_running_command →
        s.update (Event.ListClients clients) = some (s', effs) →
        s'.timer_scheduled = true) := by
  refine ⟨?_, ?_, ?_, ?_⟩
  · intro s mi he hsch
    simp [State.update, State.start_timer, he, hsch]
  · intro s he hsch
    simp [State.update, State.start_timer, he, hsch]
  · intro s pm pane hfp hne
    simp [State.update, hfp, hne]
  · intro s clients c s' effs he hsch hfind hne hupd
    simp only [State.update, listClientsStep, he, if_true, hfind] at hupd
    cases hcl : classify s.lock_trigger_cmds c.running_command with
    | none => rw [hcl] at hupd; cases hupd
    | some trig =>
      rw [hcl] at hupd
      simp only [Option.some.injEq] at hupd
      have hflag : (afterClassify s (rustTrim c.running_command) trig).1.timer_scheduled
          = true := by
        simp only [afterClassify]
        rw [if_pos hne]
        simp [State.start_timer, he, hsch]
      rw [hupd] at hflag
      exact hflag

/-- Concrete instance of C7 as amended: a raw-input notification in the
default state arms the debounce timer. -/
theorem C7_witness :
    State.default.update Event.InputReceived =
      some ({ State.default with timer_scheduled := true },
            [Effect.SetTimeout State.default.reaction_seconds]) :=
  C7_arming_sources.2.1 State.default (by decide) (by decide)

/-- Claim C8 fails as stated: two successive client-list responses both
reporting the trigger command `vim`, with no intervening mode-update
notification, make the controller issue the identical switch to `Locked`
twice in a row. -/
theorem C8_counterexample :
    (runEvents State.default
        [Event.ListClients [⟨true, "vim"⟩],
         Event.ListClients [⟨true, "vim"⟩]]).map
        (fun r => r.2.filter isSwitchEff) =
      some [Effect.SwitchToInputMode InputMode.Locked,
            Effect.SwitchToInputMode InputMode.Locked] := by decide

/-- Claim C8 as amended: a single event issues at most one switch
command, always targeting a mode different from the last known mode, and
only when the last known mode is exactly `Normal` or exactly `Locked`;
hence once a switch's target is mirrored into the last known mode the
next switch must differ, but two identical consecutive switches remain
possible while the first switch's mode change is not yet mirrored. -/
theorem C8_nonfighting (s : State) (e : Event) (s' : State) (effs : List Effect)
    (hupd : s.update e = some (s', effs)) :
    (∀ m, Effect.SwitchToInputMode m ∈ effs →
        s.latest_mode ≠ m ∧
        (s.latest_mode = InputMode.Locked ∨ s.latest_mode = InputMode.Normal)) ∧
    (effs.filter isSwitchEff).length ≤ 1 := by
  cases e with
  | PermissionRequestResult p =>
    cases p <;>
      simp only [State.update, Option.some.injEq, Prod.mk.injEq] at hupd <;>
      (obtain ⟨h1, h2⟩ := hupd
       exact ⟨by simp [← h2], by simp [← h2, isSwitchEff]⟩)
  | ModeUpdate mi =>
    simp only [State.update, Option.some.injEq] at hupd
    have h2 : effs = (State.start_timer { s with latest_mode := mi.mode }).2 := by
      rw [hupd]
    constructor
    · intro m hm
      rw [h2] at hm
      exact absurd hm (switch_not_mem_start_timer _ m)
    · rw [h2, filter_isSwitchEff_start_timer]
      simp
  | InputReceived =>
    simp only [State.update, Option.some.injEq] at hupd
    have h2 : effs = (State.start_timer s).2 := by rw [hupd]
    constructor
    · intro m hm
      rw [h2] at hm
      exact absurd hm (switch_not_mem_start_timer _ m)
    · rw [h2, filter_isSwitchEff_start_timer]
      simp
  | TabUpdate tabs =>
    cases hft : get_focused_tab tabs with
    | none =>
      simp only [State.update, hft, Option.some.injEq, Prod.mk.injEq] at hupd
      obtain ⟨h1, h2⟩ := hupd
      exact ⟨by simp [← h2], by simp [← h2, isSwitchEff]⟩
    | some tab =>
      simp only [State.update, hft] at hupd
      split at hupd <;>
        (simp only [Option.some.injEq, Prod.mk.injEq] at hupd
         obtain ⟨h1, h2⟩ := hupd
         exact ⟨by simp [← h2], by simp [← h2, isSwitchEff]⟩)
  | PaneUpdate pm =>
    cases hfp : get_focused_pane s.latest_tab_pane.tab_pos pm with
    | none =>
      simp only [State.update, hfp, Option.some.injEq, Prod.mk.injEq] at hupd
      obtain ⟨h1, h2⟩ := hupd
      exact ⟨by simp [← h2], by simp [← h2, isSwitchEff]⟩
    | some pane =>
      simp only [State.update, hfp] at hupd
      split at hupd <;>
        (simp only [Option.some.injEq, Prod.mk.injEq] at hupd
         obtain ⟨h1, h2⟩ := hupd
         exact ⟨by simp [← h2, isSwitchEff], by simp [← h2, isSwitchEff]⟩)
  | ListClients clients =>
    simp only [State.update, listClientsStep] at hupd
    by_cases hen : s.is_enabled = true
    · rw [if_pos hen] at hupd
      cases hfind : clients.find?
          (fun c => c.is_current_client && !(rustIsEmpty c.running_command)) with
      | none =>
        simp only [hfind, Option.some.injEq, Prod.mk.injEq] at hupd
        obtain ⟨h1, h2⟩ := hupd
        exact ⟨by simp [← h2], by simp [← h2, isSwitchEff]⟩
      | some c =>
        simp only [hfind] at hupd
        cases hcl : classify s.lock_trigger_cmds c.running_command with
        | none => rw [hcl] at hupd; cases hupd
        | some trig =>
          rw [hcl] at hupd
          simp only [Option.some.injEq] at hupd
          have h2 : effs = (afterClassify s (rustTrim c.running_command) trig).2 := by
            rw [hupd]
          constructor
          · intro m hm
            rw [h2] at hm
            have := (switch_mem_afterClassify s (rustTrim c.running_command) trig m).1 hm
            exact ⟨this.2.1, this.2.2⟩
          · rw [h2]
            exact afterClassify_switch_len s (rustTrim c.running_command) trig
    · rw [if_neg hen] at hupd
      simp only [Option.some.injEq, Prod.mk.injEq] at hupd
      obtain ⟨h1, h2⟩ := hupd
      exact ⟨by simp [← h2], by simp [← h2, isSwitchEff]⟩
  | Timer t =>
    simp only [State.update, Option.some.injEq, Prod.mk.injEq] at hupd
    obtain ⟨h1, h2⟩ := hupd
    exact ⟨by simp [← h2], by simp [← h2, isSwitchEff]⟩
  | Other =>
    simp only [State.update, Option.some.injEq, Prod.mk.injEq] at hupd
    obtain ⟨h1, h2⟩ := hupd
    exact ⟨by simp [← h2], by simp [← h2, isSwitchEff]⟩

/-- Concrete instance of C8 as amended: the switch issued on a `vim`
client-list response in the default state targets a mode different from
the last known mode, which is in the managed pair, and is the only
switch of that event. -/
theorem C8_witness :
    (∀ m, Effect.SwitchToInputMode m ∈
        [Effect.SwitchToInputMode InputMode.Locked, Effect.SetTimeout ratPoint3] →
        State.default.latest_mode ≠ m ∧
        (State.default.latest_mode = InputMode.Locked ∨
         State.default.latest_mode = InputMode.Normal)) ∧
    (([Effect.SwitchToInputMode InputMode.Locked,
       Effect.SetTimeout ratPoint3].filter isSwitchEff).length ≤ 1) :=
  C8_nonfighting State.default (Event.ListClients [⟨true, "vim"⟩])
    { State.default with latest_running_command := "vim", timer_scheduled := true }
    [Effect.SwitchToInputMode InputMode.Locked, Effect.SetTimeout ratPoint3]
    (by decide)

/-- Claim C9 (fatal configuration error): configuration loading aborts
exactly when a `reaction_seconds` value is supplied and fails to parse
as a floating-point literal; when the key is absent loading succeeds for
every other key combination and keeps the default latency 0.3. -/
theorem C9_configuration (parseF64 : String → Option Rat)
    (cfg : List (String × String)) (s : State) :
    (load_configuration parseF64 s cfg = none ↔
      ∃ v, cfg.lookup "reaction_seconds" = some v ∧ parseF64 v = none) ∧
    (cfg.lookup "reaction_seconds" = none →
      ∃ s', load_configuration parseF64 State.default cfg = some s' ∧
        s'.reaction_seconds = ratPoint3) := by
  constructor
  · cases hv : cfg.lookup "reaction_seconds" with
    | none =>
      simp only [load_configuration, hv]
      constructor
      · intro h
        cases h
      · rintro ⟨v, hv', hp⟩
        cases hv'
    | some v =>
      cases hp : parseF64 v with
      | none =>
        have hload : load_configuration parseF64 s cfg = none := by
          simp only [load_configuration, hv, hp]
        exact ⟨fun _ => ⟨v, rfl, hp⟩, fun _ => hload⟩
      | some r =>
        simp only [load_configuration, hv, hp]
        constructor
        · intro h
          cases h
        · rintro ⟨v', hv', hp'⟩
          injection hv' with hv''
          rw [← hv''] at hp'
          rw [hp] at hp'
          cases hp'
  · intro hv
    cases h1 : cfg.lookup "is_enabled" <;>
      cases h2 : cfg.lookup "triggers" <;>
      cases h3 : cfg.lookup "print_to_log" <;>
      simp [load_configuration, hv, h1, h2, h3, State.default]

/-- Concrete instance of C9: with no `reaction_seconds` key, loading
succeeds and the latency stays 0.3. -/
theorem C9_witness :
    ∃ s', load_configuration (fun _ => none) State.default
        [("is_enabled", "1")] = some s' ∧
      s'.reaction_seconds = ratPoint3 :=
  (C9_configuration (fun _ => none) [("is_enabled", "1")] State.default).2 (by decide)

/-- Claim C10 (pipe handler): a payload that is absent or differs from
the three recognised control strings leaves the enabled flag unchanged;
nevertheless every pipe message, when the controller ends up enabled
after payload processing, triggers a client-list inspection request and
leaves the debounce timer armed, and when it ends up disabled produces
no effect at all. -/
theorem C10_pipe (s : State) (msg : PipeMessage) :
    ((msg.payload = none ∨
        ∃ p, msg.payload = some p ∧ p ≠ "enable" ∧ p ≠ "disable" ∧ p ≠ "toggle") →
      (applyPayload s msg.payload).is_enabled = s.is_enabled) ∧
    ((applyPayload s msg.payload).is_enabled = true →
      Effect.ListClients ∈ (s.pipe msg).2 ∧
      (s.pipe msg).1.timer_scheduled = true) ∧
    ((applyPayload s msg.payload).is_enabled = false →
      s.pipe msg = (applyPayload s msg.payload, [])) := by
  refine ⟨?_, ?_, ?_⟩
  · rintro (hnone | ⟨p, hp, h1, h2, h3⟩)
    · rw [hnone]
      rfl
    · rw [hp]
      simp [applyPayload, h1, h2, h3]
  · intro hen
    constructor
    · simp only [State.pipe, hen, if_true]
      exact List.mem_cons_self _ _
    · simp only [State.pipe, hen, if_true]
      exact start_timer_flag_of_enabled _ hen
  · intro hdis
    simp [State.pipe, hdis]

/-- Concrete instance of C10: an unrecognised payload in the enabled
default state still requests an inspection and arms the timer. -/
theorem C10_witness :
    Effect.ListClients ∈ (State.default.pipe ⟨some "bogus"⟩).2 ∧
    (State.default.pipe ⟨some "bogus"⟩).1.timer_scheduled = true :=
  (C10_pipe State.default ⟨some "bogus"⟩).2.1 (by decide)

example : rustTrim " N/A " = "N/A" := by decide
example : rustTrim "  " = "" := by decide
example : splitWhitespace " a bc " = ["a", "bc"] := by decide
example : splitWhitespace "" = [] := by decide
example : splitOnChar '/' "/usr/bin/vim" = ["", "usr", "bin", "vim"] := by decide
example : splitOnChar '/' "" = [""] := by decide
example : classify ["vim"] " /usr/bin/vim file.txt " = some true := by decide
example : classify ["vim"] "N/A" = some false := by decide
example : classify ["vim"] " " = none := by decide
example : classify ["N/A"] " N/A " = some false := by decide
example :
    State.default.update (Event.ListClients [⟨true, "vim"⟩]) =
      some ({ State.default with
                latest_running_command := "vim", timer_scheduled := true },
            [Effect.SwitchToInputMode InputMode.Locked,
             Effect.SetTimeout ratPoint3]) := by decide
